import Mathlib

/-!
Verification of the HTTP response caching subsystem of the CMS backend
(`middleware/redis_cache.go` and `middleware/performance.go`).

The Go code is shallowly embedded: pointer-receiver methods become explicit
state passing, `time.Now()` becomes an explicit integer `now` parameter,
`time.Duration` becomes an integer tick count, byte slices become `List Nat`
(each element a byte value `< 256`), `map[string]string` becomes an
association list, and the external Redis server becomes an explicit store of
serialized values with per-key server-side expiry.  Fallible operations
return `Except String Unit` mirroring Go's `error` results.
-/

namespace CMS

/-- Go `time.Time.After`: `a.After(b)` holds iff `a` is strictly later than
`b`.  Time is modeled as an integer tick count. -/
def timeAfter (a b : Int) : Bool := b < a

/-- Go `strings.Contains s sub`: `sub` occurs in `s` as a contiguous
substring. -/
def goContains (s sub : String) : Bool := decide (sub.data <:+: s.data)

/-- The `CacheItem` struct of `performance.go`: response body bytes, a
single-valued header mapping, and the absolute expiry timestamp. -/
structure CacheItem where
  Data : List Nat
  Headers : List (String × String)
  ExpiresAt : Int
deriving DecidableEq

/-- The `CacheStats` struct of `redis_cache.go`.  `float64` arithmetic on
the hit ratio is modeled exactly with rationals (the divisions appearing in
the verified claims, such as 4/5, are exact in binary floating point as
well as in ℚ). -/
structure CacheStats where
  Hits : Int
  Misses : Int
  HitRatio : ℚ
  KeyCount : Int
  CacheType : String
deriving DecidableEq

/-- The `InMemoryCache` struct of `performance.go`: a mutable
`map[string]*CacheItem` modeled as an association list (first binding
wins on lookup; insertion removes any previous binding). -/
structure InMemoryCache where
  items : List (String × CacheItem)
deriving DecidableEq

/-- Replacement insert into the association-list model of a Go map. -/
def mapInsert (key : String) (v : CacheItem) (m : List (String × CacheItem)) :
    List (String × CacheItem) :=
  (key, v) :: m.filter (fun p => p.1 != key)

/-- Go `InMemoryCache.Get`: return the item unless absent or expired (strictly
past its `ExpiresAt`).  The method mutates nothing, so the store is returned
unchanged; in particular an expired entry is left in the map (only the
periodic `cleanup` goroutine removes it). -/
def InMemoryCache.Get (now : Int) (c : InMemoryCache) (key : String) :
    Option CacheItem × InMemoryCache :=
  match c.items.lookup key with
  | none => (none, c)
  | some item => if timeAfter now item.ExpiresAt then (none, c) else (some item, c)

/-- Go `InMemoryCache.Set`: unconditionally overwrite; never fails. -/
def InMemoryCache.Set (now : Int) (c : InMemoryCache) (key : String)
    (data : List Nat) (headers : List (String × String)) (ttl : Int) :
    Except String Unit × InMemoryCache :=
  (.ok (), ⟨mapInsert key ⟨data, headers, now + ttl⟩ c.items⟩)

/-- Go `InMemoryCache.Delete`: remove the binding; never fails. -/
def InMemoryCache.Delete (c : InMemoryCache) (key : String) :
    Except String Unit × InMemoryCache :=
  (.ok (), ⟨c.items.filter (fun p => p.1 != key)⟩)

/-- Go `InMemoryCache.Clear`: drop every entry; never fails. -/
def InMemoryCache.Clear (_c : InMemoryCache) :
    Except String Unit × InMemoryCache :=
  (.ok (), ⟨[]⟩)

/-- Go `InMemoryCache.InvalidatePattern`: remove every key containing the
pattern as a substring (`strings.Contains(key, pattern)`); never fails. -/
def InMemoryCache.InvalidatePattern (c : InMemoryCache) (pat : String) :
    Except String Unit × InMemoryCache :=
  (.ok (), ⟨c.items.filter (fun p => !(goContains p.1 pat))⟩)

/-- Go `InMemoryCache.GetStats`: the local tier does not track hits/misses. -/
def InMemoryCache.GetStats (c : InMemoryCache) : CacheStats :=
  { Hits := 0, Misses := 0, HitRatio := 0, KeyCount := c.items.length,
    CacheType := "in_memory" }

/-!
Serialization of the stored payload for the networked tier.

`RedisCache.Set` runs `json.Marshal` on the `CacheItem` and `RedisCache.Get`
runs `json.Unmarshal` on the stored value.  The Go standard library encodes
a `[]byte` field as a standard-alphabet padded base64 string and a
`map[string]string` field as a JSON object of string fields.  We embed this
at the level of JSON values: `Json` is the tree a marshal produces and a
parse of the stored text yields (text framing itself carries no logic the
verified claims depend on); the base64 transcoding of the body bytes, where
the real transformation of the data happens, is implemented in full.
-/

/-- JSON values as stored on the networked tier. -/
inductive Json where
  | str : String → Json
  | num : Int → Json
  | obj : List (String × Json) → Json

/-- The standard base64 alphabet (RFC 4648, as used by Go's
`encoding/base64.StdEncoding`). -/
def b64Alphabet : List Char :=
  "ABCDEFGHIJKLMNOPQRSTUVWXYZabcdefghijklmnopqrstuvwxyz0123456789+/".data

/-- Symbol for a 6-bit group. -/
def b64Char (n : Nat) : Char := b64Alphabet.getD n 'A'

/-- Position of a symbol in the base64 alphabet, `none` for a non-symbol. -/
def b64Index (c : Char) : Option Nat := b64Alphabet.findIdx? (fun d => d == c)

/-- Base64 encoding of a byte sequence, with `=` padding. -/
def base64Encode : List Nat → List Char
  | b1 :: b2 :: b3 :: rest =>
    b64Char (b1 / 4) :: b64Char (b1 % 4 * 16 + b2 / 16) ::
      b64Char (b2 % 16 * 4 + b3 / 64) :: b64Char (b3 % 64) :: base64Encode rest
  | [b1, b2] =>
    [b64Char (b1 / 4), b64Char (b1 % 4 * 16 + b2 / 16), b64Char (b2 % 16 * 4), '=']
  | [b1] => [b64Char (b1 / 4), b64Char (b1 % 4 * 16), '=', '=']
  | [] => []

/-- Decode one base64 quantum, honouring `=` padding and rejecting non-zero
trailing bits as Go's decoder does. -/
def b64DecodeGroup (c1 c2 c3 c4 : Char) : Option (List Nat) :=
  match b64Index c1, b64Index c2 with
  | some n1, some n2 =>
    if c3 = '=' then
      if c4 = '=' then
        if n2 % 16 = 0 then some [n1 * 4 + n2 / 16] else none
      else none
    else
      match b64Index c3 with
      | some n3 =>
        if c4 = '=' then
          if n3 % 4 = 0 then some [n1 * 4 + n2 / 16, n2 % 16 * 16 + n3 / 4] else none
        else
          match b64Index c4 with
          | some n4 =>
            some [n1 * 4 + n2 / 16, n2 % 16 * 16 + n3 / 4, n3 % 4 * 64 + n4]
          | none => none
      | none => none
  | _, _ => none

/-- Base64 decoding, quantum by quantum. -/
def base64Decode : List Char → Option (List Nat)
  | [] => some []
  | c1 :: c2 :: c3 :: c4 :: rest =>
    match b64DecodeGroup c1 c2 c3 c4, base64Decode rest with
    | some bs, some bs' => some (bs ++ bs')
    | _, _ => none
  | _ => none

/-- Marshal of a `CacheItem`, shaped as Go's `encoding/json` output for the
struct: body bytes as a base64 string, headers as an object of string
fields, the expiry timestamp as a number. -/
def marshalItem (it : CacheItem) : Json :=
  .obj [("Data", .str ⟨base64Encode it.Data⟩),
        ("Headers", .obj (it.Headers.map (fun p => (p.1, Json.str p.2)))),
        ("ExpiresAt", .num it.ExpiresAt)]

/-- Read a headers object back into a string-to-string mapping. -/
def decodeHeaders : List (String × Json) → Option (List (String × String))
  | [] => some []
  | (k, Json.str v) :: rest =>
    match decodeHeaders rest with
    | some hs => some ((k, v) :: hs)
    | none => none
  | _ => none

/-- Unmarshal of a stored value back into a `CacheItem`; any shape mismatch
is a failure, which `RedisCache.Get` treats as a miss. -/
def unmarshalItem (j : Json) : Option CacheItem :=
  match j with
  | .obj fields =>
    match fields.lookup "Data", fields.lookup "Headers", fields.lookup "ExpiresAt" with
    | some (.str d), some (.obj hs), some (.num e) =>
      match base64Decode d.data, decodeHeaders hs with
      | some data, some headers => some ⟨data, headers, e⟩
      | _, _ => none
    | _, _, _ => none
  | _ => none

/-- Every base64 symbol decodes back to its 6-bit value. -/
theorem b64Index_b64Char : ∀ n : Nat, n < 64 → b64Index (b64Char n) = some n := by
  decide

/-- Base64 symbols are never the padding character. -/
theorem b64Char_ne_pad : ∀ n : Nat, n < 64 → b64Char n ≠ '=' := by
  decide

/-- Base64 decode inverts base64 encode on genuine byte sequences. -/
theorem base64_roundtrip :
    ∀ bs : List Nat, (∀ b ∈ bs, b < 256) →
      base64Decode (base64Encode bs) = some bs
  | [] => fun _ => rfl
  | [b1] => by
    intro h
    have hb1 : b1 < 256 := h b1 (by simp)
    have h1 : b1 / 4 < 64 := by omega
    have h2 : b1 % 4 * 16 < 64 := by omega
    simp only [base64Encode, base64Decode, b64DecodeGroup,
      b64Index_b64Char _ h1, b64Index_b64Char _ h2, if_pos rfl]
    have : b1 % 4 * 16 % 16 = 0 := by omega
    rw [if_pos this]
    simp
    all_goals omega
  | [b1, b2] => by
    intro h
    have hb1 : b1 < 256 := h b1 (by simp)
    have hb2 : b2 < 256 := h b2 (by simp)
    have h1 : b1 / 4 < 64 := by omega
    have h2 : b1 % 4 * 16 + b2 / 16 < 64 := by omega
    have h3 : b2 % 16 * 4 < 64 := by omega
    have hpad : b64Char (b2 % 16 * 4) ≠ '=' := b64Char_ne_pad _ h3
    simp only [base64Encode, base64Decode, b64DecodeGroup,
      b64Index_b64Char _ h1, b64Index_b64Char _ h2, b64Index_b64Char _ h3,
      if_neg hpad, if_pos rfl]
    have : b2 % 16 * 4 % 4 = 0 := by omega
    rw [if_pos this]
    simp
    all_goals omega
  | b1 :: b2 :: b3 :: rest => by
    intro h
    have hb1 : b1 < 256 := h b1 (by simp)
    have hb2 : b2 < 256 := h b2 (by simp)
    have hb3 : b3 < 256 := h b3 (by simp)
    have h1 : b1 / 4 < 64 := by omega
    have h2 : b1 % 4 * 16 + b2 / 16 < 64 := by omega
    have h3 : b2 % 16 * 4 + b3 / 64 < 64 := by omega
    have h4 : b3 % 64 < 64 := by omega
    have ih := base64_roundtrip rest (fun b hb => h b (by simp [hb]))
    have hpad3 : b64Char (b2 % 16 * 4 + b3 / 64) ≠ '=' := b64Char_ne_pad _ h3
    have hpad4 : b64Char (b3 % 64) ≠ '=' := b64Char_ne_pad _ h4
    simp only [base64Encode, base64Decode, b64DecodeGroup,
      b64Index_b64Char _ h1, b64Index_b64Char _ h2, b64Index_b64Char _ h3,
      b64Index_b64Char _ h4, if_neg hpad3, if_neg hpad4, ih]
    simp
    all_goals omega

/-- Reading back an encoded headers object restores the mapping. -/
theorem decodeHeaders_roundtrip (hs : List (String × String)) :
    decodeHeaders (hs.map (fun p => (p.1, Json.str p.2))) = some hs := by
  induction hs with
  | nil => rfl
  | cons p rest ih => simp [decodeHeaders, ih]

/-- Unmarshal inverts marshal on items whose body is a genuine byte
sequence. -/
theorem unmarshal_marshal (it : CacheItem) (hwf : ∀ b ∈ it.Data, b < 256) :
    unmarshalItem (marshalItem it) = some it := by
  simp only [marshalItem, unmarshalItem, List.lookup]
  simp only [show (("Data" == "Data") = true) from rfl]
  simp only [List.lookup, show (("Headers" == "Data") = false) from rfl,
    show (("Headers" == "Headers") = true) from rfl,
    show (("ExpiresAt" == "Data") = false) from rfl,
    show (("ExpiresAt" == "Headers") = false) from rfl,
    show (("ExpiresAt" == "ExpiresAt") = true) from rfl]
  simp [base64_roundtrip it.Data hwf, decodeHeaders_roundtrip]

/-!
Glob matching as performed by the Redis `KEYS` command, which
`RedisCache.Clear`, `RedisCache.InvalidatePattern` and
`RedisCache.GetStats` rely on.  The semantics follow Redis's
`stringmatchlen`: `*` matches any sequence, `?` any single character,
`[...]` a character class (leading `^` negates, `a-b` is a range, `\`
escapes), `\` escapes the next character, every other character matches
itself.  Written with recursion on the subject string (outer) and the
pattern (inner) so that matching is a structurally recursive, hence
kernel-computable, function.
-/

/-- Split a character class body: everything up to the closing `]` (a `\`
escape protects a character), paired with the remaining pattern. -/
def classSpan : List Char → List Char × List Char
  | [] => ([], [])
  | ']' :: rest => ([], rest)
  | '\\' :: c :: rest =>
    let (b, r) := classSpan rest
    ('\\' :: c :: b, r)
  | c :: rest =>
    let (b, r) := classSpan rest
    (c :: b, r)

/-- Membership of a character in the items of a class body. -/
def classItems : List Char → Char → Bool
  | [], _ => false
  | '\\' :: d :: rest, c => c == d || classItems rest c
  | a :: '-' :: b :: rest, c =>
    (min a b ≤ c && c ≤ max a b) || classItems rest c
  | a :: rest, c => c == a || classItems rest c

/-- Class matching with a leading `^` negating the class. -/
def classMatch (body : List Char) (c : Char) : Bool :=
  match body with
  | '^' :: items => !(classItems items c)
  | items => classItems items c

/-- Does pattern `p` match the empty subject?  Only a train of `*`. -/
def emptyGlob : List Char → Bool
  | [] => true
  | '*' :: p => emptyGlob p
  | _ => false

/-- One matching step against a non-empty subject starting with `d`, where
`f q` decides whether pattern `q` matches the subject's tail. -/
def globCons (f : List Char → Bool) (d : Char) : List Char → Bool
  | [] => false
  | c :: p =>
    if c = '*' then globCons f d p || f (c :: p)
    else if c = '?' then f p
    else if c = '[' then
      let (body, rest) := classSpan p
      classMatch body d && f rest
    else if c = '\\' then
      match p with
      | e :: p' => d == e && f p'
      | [] => d == '\\' && f []
    else d == c && f p

/-- Glob matching, by recursion on the subject string. -/
def globRun : List Char → List Char → Bool
  | [], p => emptyGlob p
  | d :: s, p => globCons (globRun s) d p

/-- Redis glob matching of a pattern against a key. -/
def globMatch (p s : List Char) : Bool := globRun s p

/-- Unfolding: the empty pattern matches only the empty subject. -/
theorem globMatch_nil (s : List Char) : globMatch [] s = s.isEmpty := by
  cases s <;> rfl

/-- Unfolding: a leading `*` either is dropped or consumes one subject
character. -/
theorem globMatch_star (p s : List Char) :
    globMatch ('*' :: p) s =
      (globMatch p s || match s with | [] => false | _ :: s' => globMatch ('*' :: p) s') := by
  cases s with
  | nil => simp [globMatch, globRun, emptyGlob]
  | cons d s' => simp [globMatch, globRun, globCons]

/-- A character that carries no special glob meaning. -/
def plainChar (c : Char) : Prop := c ≠ '*' ∧ c ≠ '?' ∧ c ≠ '[' ∧ c ≠ '\\'

instance (c : Char) : Decidable (plainChar c) := by
  unfold plainChar
  infer_instance

/-- Unfolding: a plain pattern character must equal the subject head. -/
theorem globMatch_plain_cons {c : Char} (hc : plainChar c) (p : List Char)
    (d : Char) (s : List Char) :
    globMatch (c :: p) (d :: s) = (d == c && globMatch p s) := by
  obtain ⟨h1, h2, h3, h4⟩ := hc
  simp [globMatch, globRun, globCons, h1, h2, h3, h4]

/-- Unfolding: a plain pattern character never matches an empty subject. -/
theorem globMatch_plain_nil {c : Char} (hc : plainChar c) (p : List Char) :
    globMatch (c :: p) [] = false := by
  simp [globMatch, globRun, emptyGlob, hc.1]

/-- A literal run at the head of the pattern peels the same run off the
subject. -/
theorem globMatch_lit_append (lit : List Char) (hlit : ∀ c ∈ lit, plainChar c)
    (p s : List Char) :
    globMatch (lit ++ p) s = true ↔
      ∃ s', s = lit ++ s' ∧ globMatch p s' = true := by
  induction lit generalizing s with
  | nil => simp
  | cons c lit ih =>
    have hc : plainChar c := hlit c (by simp)
    cases s with
    | nil =>
      simp only [List.cons_append, globMatch_plain_nil hc]
      constructor
      · intro h; cases h
      · rintro ⟨s', h, _⟩; cases h
    | cons d s =>
      simp only [List.cons_append, globMatch_plain_cons hc]
      rw [Bool.and_eq_true, beq_iff_eq]
      rw [ih (fun x hx => hlit x (by simp [hx]))]
      constructor
      · rintro ⟨rfl, s', rfl, h⟩; exact ⟨s', rfl, h⟩
      · rintro ⟨s', h, hm⟩
        rcases List.cons_eq_cons.mp h with ⟨rfl, rfl⟩
        exact ⟨rfl, s', rfl, hm⟩

/-- A leading `*` matches exactly when some split lets the rest of the
pattern match a suffix. -/
theorem globMatch_star_iff (p s : List Char) :
    globMatch ('*' :: p) s = true ↔
      ∃ u v, s = u ++ v ∧ globMatch p v = true := by
  induction s with
  | nil =>
    rw [globMatch_star]
    simp only [Bool.or_false]
    constructor
    · intro h; exact ⟨[], [], rfl, h⟩
    · rintro ⟨u, v, h, hm⟩
      rcases List.append_eq_nil.mp h.symm with ⟨rfl, rfl⟩
      exact hm
  | cons d s ih =>
    rw [globMatch_star]
    rw [Bool.or_eq_true, ih]
    constructor
    · rintro (h | ⟨u, v, rfl, hm⟩)
      · exact ⟨[], d :: s, rfl, h⟩
      · exact ⟨d :: u, v, rfl, hm⟩
    · rintro ⟨u, v, h, hm⟩
      cases u with
      | nil =>
        left
        simp only [List.nil_append] at h
        rw [← h] at hm
        exact hm
      | cons x u =>
        right
        rcases List.cons_eq_cons.mp h with ⟨rfl, rfl⟩
        exact ⟨u, v, rfl, hm⟩

/-- A single `*` matches everything. -/
theorem globMatch_star_all (s : List Char) : globMatch ['*'] s = true := by
  rw [globMatch_star_iff]
  exact ⟨s, [], by simp, rfl⟩

/-- Characterization of the search patterns built by the networked store:
for a metacharacter-free namespace and pattern, `ns*pat*` matches exactly
the keys that start with `ns` and contain `pat` afterwards. -/
theorem globMatch_sandwich (ns pat : List Char)
    (hns : ∀ c ∈ ns, plainChar c) (hpat : ∀ c ∈ pat, plainChar c)
    (s : List Char) :
    globMatch (ns ++ '*' :: (pat ++ ['*'])) s = true ↔
      ∃ u v, s = ns ++ u ++ pat ++ v := by
  rw [globMatch_lit_append ns hns]
  constructor
  · rintro ⟨s', rfl, h⟩
    rw [globMatch_star_iff] at h
    obtain ⟨u, v, rfl, hm⟩ := h
    rw [globMatch_lit_append pat hpat] at hm
    obtain ⟨w, rfl, _⟩ := hm
    exact ⟨u, w, by simp⟩
  · rintro ⟨u, v, rfl⟩
    refine ⟨u ++ pat ++ v, by simp, ?_⟩
    rw [globMatch_star_iff]
    refine ⟨u, pat ++ v, by simp, ?_⟩
    rw [globMatch_lit_append pat hpat]
    exact ⟨v, rfl, globMatch_star_all v⟩

/-!
The networked tier.  The external Redis server is modeled as a list of
entries (full key, stored JSON value, absolute server-side expiry as set by
the `SET ... ttl` call); the server hides entries past their expiry (strict,
millisecond-model) exactly as it hides deleted ones.  `RedisCache` holds the
server state, the configured key namespace (the Go field `prefix`, written
`pfx` here), and the running statistics counters of the Go struct's `stats`
field.
-/

/-- One key/value entry on the Redis server. -/
structure RedisEntry where
  key : String
  value : Json
  serverExpiresAt : Int

/-- The external Redis server state. -/
structure RedisServer where
  entries : List RedisEntry

/-- Server-side `GET`: the stored value, unless absent or reaped. -/
def redisGET (now : Int) (srv : RedisServer) (k : String) : Option Json :=
  match srv.entries.find? (fun e => e.key == k) with
  | none => none
  | some e => if timeAfter now e.serverExpiresAt then none else some e.value

/-- Server-side `SET` with a relative expiry. -/
def redisSET (now : Int) (srv : RedisServer) (k : String) (v : Json)
    (ttl : Int) : RedisServer :=
  ⟨⟨k, v, now + ttl⟩ :: srv.entries.filter (fun e => e.key != k)⟩

/-- Server-side `DEL` of a single key. -/
def redisDEL (srv : RedisServer) (k : String) : RedisServer :=
  ⟨srv.entries.filter (fun e => e.key != k)⟩

/-- Is a live (unexpired) entry selected by the glob pattern?  This is the
membership test of the server-side `KEYS` command. -/
def keysSelects (now : Int) (pat : String) (e : RedisEntry) : Bool :=
  globMatch pat.data e.key.data && !(timeAfter now e.serverExpiresAt)

/-- Server-side `KEYS`: every live key matching the glob pattern. -/
def redisKEYS (now : Int) (srv : RedisServer) (pat : String) : List String :=
  (srv.entries.filter (keysSelects now pat)).map (fun e => e.key)

/-- Bulk `DEL` of every key selected by a `KEYS` query, as issued by
`Clear` and `InvalidatePattern`. -/
def redisDELMatching (now : Int) (srv : RedisServer) (pat : String) :
    RedisServer :=
  ⟨srv.entries.filter (fun e => !(keysSelects now pat e))⟩

/-- The `RedisCache` struct: client handle (the server state), key
namespace, and running stats. -/
structure RedisCache where
  server : RedisServer
  pfx : String
  Hits : Int
  Misses : Int
  HitRatio : ℚ
  KeyCount : Int

/-- Go `RedisCache.Get`: network read of `prefix + key`; absent, reaped and
malformed values count as a miss; a value whose embedded `ExpiresAt` is
strictly past counts as a miss and triggers `r.Delete(key)`; otherwise a
hit. -/
def RedisCache.Get (now : Int) (r : RedisCache) (key : String) :
    Option CacheItem × RedisCache :=
  let fullKey := r.pfx ++ key
  match redisGET now r.server fullKey with
  | none => (none, { r with Misses := r.Misses + 1 })
  | some j =>
    match unmarshalItem j with
    | none => (none, { r with Misses := r.Misses + 1 })
    | some item =>
      if timeAfter now item.ExpiresAt then
        (none, { r with server := redisDEL r.server fullKey,
                        Misses := r.Misses + 1 })
      else
        (some item, { r with Hits := r.Hits + 1 })

/-- Go `RedisCache.Set`: marshal `{Data, Headers, ExpiresAt := now + ttl}` and
write it under `prefix + key` with the same ttl as the server-side expiry
hint. -/
def RedisCache.Set (now : Int) (r : RedisCache) (key : String)
    (data : List Nat) (headers : List (String × String)) (ttl : Int) :
    Except String Unit × RedisCache :=
  let item : CacheItem := ⟨data, headers, now + ttl⟩
  (.ok (), { r with server := redisSET now r.server (r.pfx ++ key)
                      (marshalItem item) ttl })

/-- Go `RedisCache.Delete`: server-side `DEL` of `prefix + key`. -/
def RedisCache.Delete (r : RedisCache) (key : String) :
    Except String Unit × RedisCache :=
  (.ok (), { r with server := redisDEL r.server (r.pfx ++ key) })

/-- Go `RedisCache.Clear`: enumerate `prefix*` and bulk-delete. -/
def RedisCache.Clear (now : Int) (r : RedisCache) :
    Except String Unit × RedisCache :=
  (.ok (), { r with server := redisDELMatching now r.server (r.pfx ++ "*") })

/-- Go `RedisCache.InvalidatePattern`: enumerate `prefix*pattern*` and
bulk-delete. -/
def RedisCache.InvalidatePattern (now : Int) (r : RedisCache) (pat : String) :
    Except String Unit × RedisCache :=
  (.ok (), { r with server :=
    redisDELMatching now r.server (r.pfx ++ "*" ++ pat ++ "*") })

/-- Go `RedisCache.GetStats`: refresh `KeyCount` from a live `KEYS prefix*`
enumeration, recompute `HitRatio` from the running counters when any
lookups happened, and return the stats. -/
def RedisCache.GetStats (now : Int) (r : RedisCache) :
    CacheStats × RedisCache :=
  let kc : Int := (redisKEYS now r.server (r.pfx ++ "*")).length
  let total := r.Hits + r.Misses
  let ratio := if 0 < total then (r.Hits : ℚ) / (total : ℚ) else r.HitRatio
  let r' := { r with KeyCount := kc, HitRatio := ratio }
  ({ Hits := r'.Hits, Misses := r'.Misses, HitRatio := r'.HitRatio,
     KeyCount := r'.KeyCount, CacheType := "redis" }, r')

/-- Go `RedisCache.ResetStats`: zero every counter. -/
def RedisCache.ResetStats (r : RedisCache) : Except String Unit × RedisCache :=
  (.ok (), { r with Hits := 0, Misses := 0, HitRatio := 0, KeyCount := 0 })

/-- A freshly constructed networked store over a given server state, as
built by `NewRedisCache` after a successful ping: zeroed stats, configured
namespace. -/
def newRedisCache (srv : RedisServer) (ns : String) : RedisCache :=
  { server := srv, pfx := ns, Hits := 0, Misses := 0, HitRatio := 0,
    KeyCount := 0 }

/-!
The Cache Manager.  In Go the manager holds two `CacheInterface` values and
a `useFallback` flag; here the interface is a record of operations over an
explicit state type and the manager's methods are defined over any two such
implementations, mirroring the dynamic dispatch of the source.
-/

/-- The `CacheInterface` capability set over a state type. -/
structure StoreOps (σ : Type) where
  get : Int → σ → String → Option CacheItem × σ
  set : Int → σ → String → List Nat → List (String × String) → Int →
    Except String Unit × σ
  del : σ → String → Except String Unit × σ
  clear : Int → σ → Except String Unit × σ
  invalidate : Int → σ → String → Except String Unit × σ

/-- The `CacheManager` state: primary store, fallback store, mode flag. -/
structure CMState (σ₁ σ₂ : Type) where
  primary : σ₁
  fallback : σ₂
  useFallback : Bool

variable {σ₁ σ₂ : Type}

/-- Go `CacheManager.Get`: try the primary; on a miss, consult the fallback
only when `useFallback` is set. -/
def cmGet (ops₁ : StoreOps σ₁) (ops₂ : StoreOps σ₂) (now : Int)
    (cm : CMState σ₁ σ₂) (key : String) :
    Option CacheItem × CMState σ₁ σ₂ :=
  let (item, p') := ops₁.get now cm.primary key
  match item with
  | some it => (some it, { cm with primary := p' })
  | none =>
    if !cm.useFallback then (none, { cm with primary := p' })
    else
      let (item₂, f') := ops₂.get now cm.fallback key
      (item₂, { cm with primary := p', fallback := f' })

/-- Go `CacheManager.Set`: write to the primary; when that fails and the
manager is not in fallback mode, write to the fallback and return that
write's own result; in fallback mode the primary error is returned. -/
def cmSet (ops₁ : StoreOps σ₁) (ops₂ : StoreOps σ₂) (now : Int)
    (cm : CMState σ₁ σ₂) (key : String) (data : List Nat)
    (headers : List (String × String)) (ttl : Int) :
    Except String Unit × CMState σ₁ σ₂ :=
  let (r₁, p') := ops₁.set now cm.primary key data headers ttl
  match r₁ with
  | .ok _ => (.ok (), { cm with primary := p' })
  | .error e =>
    if !cm.useFallback then
      let (r₂, f') := ops₂.set now cm.fallback key data headers ttl
      (r₂, { cm with primary := p', fallback := f' })
    else (.error e, { cm with primary := p' })

/-- Combine the two error results the way `Delete`/`Clear`/
`InvalidatePattern` do: the primary's error wins, else the fallback's. -/
def combineErrs (r₁ r₂ : Except String Unit) : Except String Unit :=
  match r₁ with
  | .error e => .error e
  | .ok _ => r₂

/-- Go `CacheManager.Delete`: delete from the primary, and also from the
fallback when `useFallback` is NOT set (this is the branch condition
written in the source). -/
def cmDelete (ops₁ : StoreOps σ₁) (ops₂ : StoreOps σ₂)
    (cm : CMState σ₁ σ₂) (key : String) :
    Except String Unit × CMState σ₁ σ₂ :=
  let (r₁, p') := ops₁.del cm.primary key
  if !cm.useFallback then
    let (r₂, f') := ops₂.del cm.fallback key
    (combineErrs r₁ r₂, { cm with primary := p', fallback := f' })
  else (r₁, { cm with primary := p' })

/-- Go `CacheManager.Clear`: clear the primary, and also the fallback when
`useFallback` is NOT set. -/
def cmClear (ops₁ : StoreOps σ₁) (ops₂ : StoreOps σ₂) (now : Int)
    (cm : CMState σ₁ σ₂) :
    Except String Unit × CMState σ₁ σ₂ :=
  let (r₁, p') := ops₁.clear now cm.primary
  if !cm.useFallback then
    let (r₂, f') := ops₂.clear now cm.fallback
    (combineErrs r₁ r₂, { cm with primary := p', fallback := f' })
  else (r₁, { cm with primary := p' })

/-- Go `CacheManager.InvalidatePattern`: invalidate on the primary, and also
on the fallback when `useFallback` is NOT set. -/
def cmInvalidatePattern (ops₁ : StoreOps σ₁) (ops₂ : StoreOps σ₂) (now : Int)
    (cm : CMState σ₁ σ₂) (pat : String) :
    Except String Unit × CMState σ₁ σ₂ :=
  let (r₁, p') := ops₁.invalidate now cm.primary pat
  if !cm.useFallback then
    let (r₂, f') := ops₂.invalidate now cm.fallback pat
    (combineErrs r₁ r₂, { cm with primary := p', fallback := f' })
  else (r₁, { cm with primary := p' })

/-- The local store as a `CacheInterface` implementation. -/
def inMemOps : StoreOps InMemoryCache where
  get := InMemoryCache.Get
  set := InMemoryCache.Set
  del := InMemoryCache.Delete
  clear := fun _ c => c.Clear
  invalidate := fun _ c pat => c.InvalidatePattern pat

/-- The networked store as a `CacheInterface` implementation. -/
def redisOps : StoreOps RedisCache where
  get := RedisCache.Get
  set := RedisCache.Set
  del := RedisCache.Delete
  clear := RedisCache.Clear
  invalidate := RedisCache.InvalidatePattern

/-- A networked store whose steady-state writes fail with a network error
while reads miss, the degraded behaviour §4.3 of the spec ascribes to a
store whose backing service became unreachable after construction.  Used to
exercise the manager's failure paths, which the source leaves to dynamic
dispatch over `CacheInterface`. -/
def unreachableOps : StoreOps Unit where
  get := fun _ s _ => (none, s)
  set := fun _ s _ _ _ _ => (.error "failed to set cache item: network unreachable", s)
  del := fun s _ => (.error "failed to delete cache item: network unreachable", s)
  clear := fun _ s => (.error "failed to get keys: network unreachable", s)
  invalidate := fun _ s _ => (.error "failed to get keys: network unreachable", s)

/-!
Key derivation.  `generateRedisCacheKey` hashes
`method + ":" + url + ":" + userAgent` with MD5 (`crypto/md5`), hex-encodes
the 16-byte digest, and prepends a resource tag found by ordered
`strings.Contains` checks on the URL string.  MD5 is implemented in full
(RFC 1321) over `Nat` with arithmetic mod 2^32.
-/

/-- Bitwise complement within 32 bits. -/
def bnot32 (x : Nat) : Nat := x ^^^ 0xFFFFFFFF

/-- Left rotation of a 32-bit word. -/
def rotl32 (x n : Nat) : Nat :=
  ((x <<< n) % 4294967296) ||| (x >>> (32 - n))

/-- The 64 MD5 sine-derived constants. -/
def md5K : List Nat :=
  [0xd76aa478, 0xe8c7b756, 0x242070db, 0xc1bdceee,
   0xf57c0faf, 0x4787c62a, 0xa8304613, 0xfd469501,
   0x698098d8, 0x8b44f7af, 0xffff5bb1, 0x895cd7be,
   0x6b901122, 0xfd987193, 0xa679438e, 0x49b40821,
   0xf61e2562, 0xc040b340, 0x265e5a51, 0xe9b6c7aa,
   0xd62f105d, 0x02441453, 0xd8a1e681, 0xe7d3fbc8,
   0x21e1cde6, 0xc33707d6, 0xf4d50d87, 0x455a14ed,
   0xa9e3e905, 0xfcefa3f8, 0x676f02d9, 0x8d2a4c8a,
   0xfffa3942, 0x8771f681, 0x6d9d6122, 0xfde5380c,
   0xa4beea44, 0x4bdecfa9, 0xf6bb4b60, 0xbebfbc70,
   0x289b7ec6, 0xeaa127fa, 0xd4ef3085, 0x04881d05,
   0xd9d4d039, 0xe6db99e5, 0x1fa27cf8, 0xc4ac5665,
   0xf4292244, 0x432aff97, 0xab9423a7, 0xfc93a039,
   0x655b59c3, 0x8f0ccc92, 0xffeff47d, 0x85845dd1,
   0x6fa87e4f, 0xfe2ce6e0, 0xa3014314, 0x4e0811a1,
   0xf7537e82, 0xbd3af235, 0x2ad7d2bb, 0xeb86d391]

/-- The 64 MD5 rotation amounts. -/
def md5S : List Nat :=
  [7, 12, 17, 22, 7, 12, 17, 22, 7, 12, 17, 22, 7, 12, 17, 22,
   5, 9, 14, 20, 5, 9, 14, 20, 5, 9, 14, 20, 5, 9, 14, 20,
   4, 11, 16, 23, 4, 11, 16, 23, 4, 11, 16, 23, 4, 11, 16, 23,
   6, 10, 15, 21, 6, 10, 15, 21, 6, 10, 15, 21, 6, 10, 15, 21]

/-- The round-dependent mixing function. -/
def md5F (i b c d : Nat) : Nat :=
  if i < 16 then (b &&& c) ||| (bnot32 b &&& d)
  else if i < 32 then (d &&& b) ||| (bnot32 d &&& c)
  else if i < 48 then b ^^^ c ^^^ d
  else c ^^^ (b ||| bnot32 d)

/-- The round-dependent message word index. -/
def md5G (i : Nat) : Nat :=
  if i < 16 then i
  else if i < 32 then (5 * i + 1) % 16
  else if i < 48 then (3 * i + 5) % 16
  else 7 * i % 16

/-- MD5 padding: a `0x80` byte, zeros to 56 mod 64, then the bit length as
eight little-endian bytes. -/
def md5Pad (msg : List Nat) : List Nat :=
  let len := msg.length
  let zeros := (119 - len % 64) % 64
  msg ++ 0x80 :: List.replicate zeros 0 ++
    (List.range 8).map (fun i => len * 8 / 256 ^ i % 256)

/-- The 64-byte blocks of a padded message. -/
def md5Chunks (l : List Nat) : List (List Nat) :=
  (List.range (l.length / 64)).map (fun i => (l.drop (64 * i)).take 64)

/-- The `g`-th little-endian 32-bit word of a block. -/
def chunkWord (chunk : List Nat) (g : Nat) : Nat :=
  chunk.getD (4 * g) 0 + 256 * chunk.getD (4 * g + 1) 0 +
    65536 * chunk.getD (4 * g + 2) 0 + 16777216 * chunk.getD (4 * g + 3) 0

/-- One MD5 round on the working state. -/
def md5Round (chunk : List Nat) (st : Nat × Nat × Nat × Nat) (i : Nat) :
    Nat × Nat × Nat × Nat :=
  let (a, b, c, d) := st
  let f := (md5F i b c d + a + md5K.getD i 0 + chunkWord chunk (md5G i)) %
    4294967296
  (d, (b + rotl32 f (md5S.getD i 0)) % 4294967296, b, c)

/-- Process one 64-byte block. -/
def md5ProcessChunk (st : Nat × Nat × Nat × Nat) (chunk : List Nat) :
    Nat × Nat × Nat × Nat :=
  let (a0, b0, c0, d0) := st
  let (a, b, c, d) := (List.range 64).foldl (md5Round chunk) st
  ((a0 + a) % 4294967296, (b0 + b) % 4294967296,
   (c0 + c) % 4294967296, (d0 + d) % 4294967296)

/-- A 32-bit word as four little-endian bytes. -/
def leBytes4 (n : Nat) : List Nat :=
  [n % 256, n / 256 % 256, n / 65536 % 256, n / 16777216 % 256]

/-- The MD5 digest (`md5.Sum`) of a byte sequence: sixteen bytes. -/
def md5Bytes (msg : List Nat) : List Nat :=
  let (a, b, c, d) := (md5Chunks (md5Pad msg)).foldl md5ProcessChunk
    (0x67452301, 0xefcdab89, 0x98badcfe, 0x10325476)
  leBytes4 a ++ leBytes4 b ++ leBytes4 c ++ leBytes4 d

/-- UTF-8 encoding of one character, as Go's `[]byte(string)` produces. -/
def utf8Encode (c : Char) : List Nat :=
  let n := c.toNat
  if n < 128 then [n]
  else if n < 2048 then [192 + n / 64, 128 + n % 64]
  else if n < 65536 then [224 + n / 4096, 128 + n / 64 % 64, 128 + n % 64]
  else [240 + n / 262144, 128 + n / 4096 % 64, 128 + n / 64 % 64, 128 + n % 64]

/-- The UTF-8 bytes of a string. -/
def strBytes (s : String) : List Nat :=
  s.data.foldr (fun c acc => utf8Encode c ++ acc) []

/-- Lower-case hex digit for a 4-bit value. -/
def hexDigit (n : Nat) : Char :=
  if n < 10 then Char.ofNat (48 + n) else Char.ofNat (87 + n)

/-- Lower-case hex encoding of a byte sequence
(`hex.EncodeToString`). -/
def hexEncode (bs : List Nat) : String :=
  ⟨bs.foldr (fun b acc => hexDigit (b / 16 % 16) :: hexDigit (b % 16) :: acc) []⟩

/-- The hex digest portion of a cache key:
`hex(md5(method + ":" + url + ":" + userAgent))`. -/
def redisDigest (method url userAgent : String) : String :=
  hexEncode (md5Bytes (strBytes (method ++ ":" ++ url ++ ":" ++ userAgent)))

/-- Go `generateRedisCacheKey`: ordered `strings.Contains` checks of the URL
string against `/posts`, `/pages`, `/media` pick the resource tag; the key
is `tag:digest` when a tag was found, else the bare digest. -/
def generateRedisCacheKey (method url userAgent : String) : String :=
  let resource :=
    if goContains url "/posts" then "posts"
    else if goContains url "/pages" then "pages"
    else if goContains url "/media" then "media"
    else ""
  let hashStr := redisDigest method url userAgent
  if resource ≠ "" then resource ++ ":" ++ hashStr else hashStr

/-!
The caching middleware.  A request carries the fields the handler reads
(`c.Request.Method`, `c.Request.URL.Path`, `c.Request.URL.String()`, the
`User-Agent` header); the downstream handler's effect is its produced
response (status, body bytes as captured by the wrapping `responseWriter`,
headers).  The middleware runs over any `CacheInterface` implementation; in
the wired program that implementation is the Cache Manager.
-/

/-- The request fields the middleware consults. -/
structure Request where
  Method : String
  URLPath : String
  URLString : String
  UserAgent : String

/-- An HTTP response: status, body bytes, single-valued headers. -/
structure HTTPResponse where
  status : Nat
  body : List Nat
  headers : List (String × String)
deriving DecidableEq

/-- Go's `cacheKey[:8]`, the first eight characters of the key. -/
def keyFirst8 (k : String) : String := ⟨k.data.take 8⟩

/-- The manager itself as a `CacheInterface` implementation, as it is used
by the middleware and the invalidation wrappers. -/
def managerOps (ops₁ : StoreOps σ₁) (ops₂ : StoreOps σ₂) :
    StoreOps (CMState σ₁ σ₂) where
  get := cmGet ops₁ ops₂
  set := cmSet ops₁ ops₂
  del := cmDelete ops₁ ops₂
  clear := cmClear ops₁ ops₂
  invalidate := cmInvalidatePattern ops₁ ops₂

/-- One pass of `RedisCacheMiddleware(ttl)` over a request: non-GET and
`/admin`, `/auth` paths pass through; a hit replays the stored headers and
body with `http.StatusOK` and short-circuits; a miss runs the downstream
handler and stores the captured response exactly when its status is in
[200,300) and the captured body is non-empty. -/
def RedisCacheMiddleware (ops : StoreOps σ) (ttl : Int) (now : Int) (st : σ)
    (req : Request) (downstream : HTTPResponse) : HTTPResponse × σ :=
  if req.Method ≠ "GET" then (downstream, st)
  else if goContains req.URLPath "/admin" || goContains req.URLPath "/auth" then
    (downstream, st)
  else
    let cacheKey := generateRedisCacheKey req.Method req.URLString req.UserAgent
    match ops.get now st cacheKey with
    | (some item, st') =>
      ({ status := 200, body := item.Data,
         headers := item.Headers ++
           [("X-Cache", "HIT"), ("X-Cache-Key", keyFirst8 cacheKey)] }, st')
    | (none, st') =>
      if 200 ≤ downstream.status ∧ downstream.status < 300 ∧
          downstream.body ≠ [] then
        let (_, st'') := ops.set now st' cacheKey downstream.body
          downstream.headers ttl
        ({ downstream with headers := downstream.headers ++
            [("X-Cache", "MISS"), ("X-Cache-Key", keyFirst8 cacheKey)] }, st'')
      else (downstream, st')

/-!
Shared lemmas about the store operations.
-/

/-- Looking a key up after filtering it out always fails. -/
theorem find?_filter_self (l : List RedisEntry) (k : String) :
    (l.filter (fun e => e.key != k)).find? (fun e => e.key == k) = none := by
  rw [List.find?_eq_none]
  intro e he
  have := (List.mem_filter.mp he).2
  simpa [bne] using this

/-- Set-then-get on the local store: the freshly written item is returned
until strictly past its expiry, and reported absent afterwards. -/
theorem inmem_set_get (c : InMemoryCache) (key : String) (data : List Nat)
    (headers : List (String × String)) (ttl now now' : Int) :
    (InMemoryCache.Get now' (InMemoryCache.Set now c key data headers ttl).2 key).1 =
      if timeAfter now' (now + ttl) then none
      else some ⟨data, headers, now + ttl⟩ := by
  simp only [InMemoryCache.Set, InMemoryCache.Get, mapInsert, List.lookup,
    beq_self_eq_true]
  split <;> simp_all

/-- Set-then-get on the networked store: the marshalled value survives the
round trip and is returned until strictly past its expiry (the server-side
reap and the embedded check share the same instant), and is reported absent
afterwards. -/
theorem redis_set_get (r : RedisCache) (key : String) (data : List Nat)
    (headers : List (String × String)) (ttl now now' : Int)
    (hwf : ∀ b ∈ data, b < 256) :
    (RedisCache.Get now' (RedisCache.Set now r key data headers ttl).2 key).1 =
      if timeAfter now' (now + ttl) then none
      else some ⟨data, headers, now + ttl⟩ := by
  simp only [RedisCache.Set, RedisCache.Get, redisGET, redisSET, List.find?,
    beq_self_eq_true]
  cases h : timeAfter now' (now + ttl) with
  | true => simp [h]
  | false => simp [h, unmarshal_marshal ⟨data, headers, now + ttl⟩ hwf]

/-- Claim C1's counterexample input: a manager in Primary-Available mode
over two local stores, with one entry in the fallback. -/
def c1Manager : CMState InMemoryCache InMemoryCache :=
  ⟨⟨[]⟩, ⟨[("k", ⟨[1], [], 100⟩)]⟩, false⟩

/-- C1: the claim is false on the code.  With `use_fallback = false`
(Primary-Available mode) the manager's delete, clear and
pattern-invalidation DO reach the fallback store: here each of the three
operations removes the fallback's entry for `"k"`. -/
theorem claim_C1_counterexample :
    c1Manager.useFallback = false ∧
    c1Manager.fallback.items.lookup "k" = some ⟨[1], [], 100⟩ ∧
    (cmDelete inMemOps inMemOps c1Manager "k").2.fallback.items.lookup "k" = none ∧
    (cmClear inMemOps inMemOps 0 c1Manager).2.fallback.items = [] ∧
    (cmInvalidatePattern inMemOps inMemOps 0 c1Manager "k").2.fallback.items.lookup "k"
      = none := by
  refine ⟨rfl, by decide, by decide, rfl, by decide⟩

/-- C1 (amended): delete/clear/invalidate-by-substring are applied to the
primary unconditionally, and to the fallback store exactly when
`use_fallback = false` (Primary-Available mode) — the branch condition is
the opposite of the one the claim states; in Primary-Unavailable mode only
the `primary` reference (which `NewCacheManager` aliases to the same local
store) is operated on and the `fallback` field is untouched. -/
theorem claim_C1 (ops₁ : StoreOps σ₁) (ops₂ : StoreOps σ₂)
    (cm : CMState σ₁ σ₂) (key pat : String) (now : Int) :
    ((cmDelete ops₁ ops₂ cm key).2.primary = (ops₁.del cm.primary key).2 ∧
     (cmClear ops₁ ops₂ now cm).2.primary = (ops₁.clear now cm.primary).2 ∧
     (cmInvalidatePattern ops₁ ops₂ now cm pat).2.primary =
       (ops₁.invalidate now cm.primary pat).2) ∧
    (cm.useFallback = false →
      (cmDelete ops₁ ops₂ cm key).2.fallback = (ops₂.del cm.fallback key).2 ∧
      (cmClear ops₁ ops₂ now cm).2.fallback = (ops₂.clear now cm.fallback).2 ∧
      (cmInvalidatePattern ops₁ ops₂ now cm pat).2.fallback =
        (ops₂.invalidate now cm.fallback pat).2) ∧
    (cm.useFallback = true →
      (cmDelete ops₁ ops₂ cm key).2.fallback = cm.fallback ∧
      (cmClear ops₁ ops₂ now cm).2.fallback = cm.fallback ∧
      (cmInvalidatePattern ops₁ ops₂ now cm pat).2.fallback = cm.fallback) := by
  refine ⟨⟨?_, ?_, ?_⟩, fun h => ⟨?_, ?_, ?_⟩, fun h => ⟨?_, ?_, ?_⟩⟩
  case refine_1 | refine_2 | refine_3 =>
    cases hf : cm.useFallback <;>
      simp [cmDelete, cmClear, cmInvalidatePattern, hf]
  all_goals simp [cmDelete, cmClear, cmInvalidatePattern, h]

/-- Witness for C1 (amended) at concrete managers in both modes. -/
theorem claim_C1_witness :
    ((cmDelete inMemOps inMemOps ⟨⟨[]⟩, ⟨[]⟩, false⟩ "k").2.fallback =
      (inMemOps.del (⟨[]⟩ : InMemoryCache) "k").2) ∧
    ((cmDelete inMemOps inMemOps ⟨⟨[]⟩, ⟨[]⟩, true⟩ "k").2.fallback =
      (⟨[]⟩ : InMemoryCache)) :=
  ⟨((claim_C1 inMemOps inMemOps ⟨⟨[]⟩, ⟨[]⟩, false⟩ "k" "p" 0).2.1 rfl).1,
   ((claim_C1 inMemOps inMemOps ⟨⟨[]⟩, ⟨[]⟩, true⟩ "k" "p" 0).2.2 rfl).1⟩

/-- C2: the claim is false on the code.  When the primary write fails and
the fallback write also fails, the manager's `Set` returns the fallback's
error to its caller instead of swallowing it and reporting success. -/
theorem claim_C2_counterexample :
    (cmSet unreachableOps unreachableOps 0 ⟨(), (), false⟩ "k" [1] [] 5).1 =
      .error "failed to set cache item: network unreachable" ∧
    (cmSet unreachableOps unreachableOps 0 ⟨(), (), false⟩ "k" [1] [] 5).1 ≠
      .ok () :=
  ⟨rfl, by simp [cmSet, unreachableOps]⟩

/-- C2 (amended): `Set` writes to the primary; only when the primary write
fails (and the manager is in Primary-Available mode) is the fallback store
attempted, and the fallback write's own result — failure included — is
returned to the caller (the log line records the primary failure; nothing
is swallowed); in Primary-Unavailable mode the primary error is returned
directly. -/
theorem claim_C2 (ops₁ : StoreOps σ₁) (ops₂ : StoreOps σ₂)
    (cm : CMState σ₁ σ₂) (now : Int) (key : String) (data : List Nat)
    (headers : List (String × String)) (ttl : Int) :
    (∀ p', ops₁.set now cm.primary key data headers ttl = (.ok (), p') →
      cmSet ops₁ ops₂ now cm key data headers ttl =
        (.ok (), { cm with primary := p' })) ∧
    (∀ e p', ops₁.set now cm.primary key data headers ttl = (.error e, p') →
      cm.useFallback = false →
      cmSet ops₁ ops₂ now cm key data headers ttl =
        ((ops₂.set now cm.fallback key data headers ttl).1,
         { cm with primary := p',
                   fallback := (ops₂.set now cm.fallback key data headers ttl).2 })) ∧
    (∀ e p', ops₁.set now cm.primary key data headers ttl = (.error e, p') →
      cm.useFallback = true →
      cmSet ops₁ ops₂ now cm key data headers ttl =
        (.error e, { cm with primary := p' })) := by
  refine ⟨fun p' h => ?_, fun e p' h hf => ?_, fun e p' h hf => ?_⟩
  · simp [cmSet, h]
  · simp [cmSet, h, hf]
  · simp [cmSet, h, hf]

/-- Witness for C2 (amended): a succeeding primary, and a failing primary
over each manager mode. -/
theorem claim_C2_witness :
    (cmSet inMemOps inMemOps 0 ⟨⟨[]⟩, ⟨[]⟩, false⟩ "k" [1] [] 5 =
      (.ok (), ⟨(InMemoryCache.Set 0 ⟨[]⟩ "k" [1] [] 5).2, ⟨[]⟩, false⟩)) ∧
    (cmSet unreachableOps inMemOps 0 ⟨(), ⟨[]⟩, false⟩ "k" [1] [] 5 =
      ((InMemoryCache.Set 0 ⟨[]⟩ "k" [1] [] 5).1,
       ⟨(), (InMemoryCache.Set 0 ⟨[]⟩ "k" [1] [] 5).2, false⟩)) ∧
    (cmSet unreachableOps inMemOps 0 ⟨(), ⟨[]⟩, true⟩ "k" [1] [] 5 =
      (.error "failed to set cache item: network unreachable", ⟨(), ⟨[]⟩, true⟩)) :=
  ⟨(claim_C2 inMemOps inMemOps ⟨⟨[]⟩, ⟨[]⟩, false⟩ 0 "k" [1] [] 5).1 _ rfl,
   (claim_C2 unreachableOps inMemOps ⟨(), ⟨[]⟩, false⟩ 0 "k" [1] [] 5).2.1
     "failed to set cache item: network unreachable" () rfl rfl,
   (claim_C2 unreachableOps inMemOps ⟨(), ⟨[]⟩, true⟩ 0 "k" [1] [] 5).2.2
     "failed to set cache item: network unreachable" () rfl rfl⟩

/-- Claim C3's counterexample input: a local store holding an entry that
expired at time 5. -/
def c3Store : InMemoryCache := ⟨[("k", ⟨[1], [], 5⟩)]⟩

/-- C3: the claim is false on the code for the local store.  At time 10 the
entry is expired; the read reports a miss, but no delete happens — the
store is returned unchanged and the stale entry is still in storage. -/
theorem claim_C3_counterexample :
    (InMemoryCache.Get 10 c3Store "k").1 = none ∧
    (InMemoryCache.Get 10 c3Store "k").2 = c3Store ∧
    c3Store.items.lookup "k" = some ⟨[1], [], 5⟩ := by
  refine ⟨by decide, by decide, by decide⟩

/-- C3 (amended): only the networked store's get deletes the stale entry on
an expired read (and counts a miss); the local store's get on an expired
entry reports a miss but leaves its storage untouched — the stale entry is
only removed by the periodic cleanup sweep. -/
theorem claim_C3 :
    (∀ (r : RedisCache) (key : String) (now : Int) (j : Json) (item : CacheItem),
      redisGET now r.server (r.pfx ++ key) = some j →
      unmarshalItem j = some item →
      timeAfter now item.ExpiresAt = true →
      RedisCache.Get now r key =
        (none, { r with server := redisDEL r.server (r.pfx ++ key),
                        Misses := r.Misses + 1 }) ∧
      ((RedisCache.Get now r key).2.server.entries.find?
        (fun e => e.key == r.pfx ++ key)) = none) ∧
    (∀ (c : InMemoryCache) (key : String) (now : Int) (item : CacheItem),
      c.items.lookup key = some item →
      timeAfter now item.ExpiresAt = true →
      InMemoryCache.Get now c key = (none, c)) := by
  constructor
  · intro r key now j item hget hum hexp
    have hmain : RedisCache.Get now r key =
        (none, { r with server := redisDEL r.server (r.pfx ++ key),
                        Misses := r.Misses + 1 }) := by
      simp [RedisCache.Get, hget, hum, hexp]
    refine ⟨hmain, ?_⟩
    rw [hmain]
    exact find?_filter_self _ _
  · intro c key now item hit hexp
    simp [InMemoryCache.Get, hit, hexp]

/-- Witness for C3 (amended): a networked store and a local store, each
holding an entry expired at time 5, read at time 10. -/
theorem claim_C3_witness :
    RedisCache.Get 10 (newRedisCache
        ⟨[⟨"cms_cache:k", marshalItem ⟨[1], [], 5⟩, 50⟩]⟩ "cms_cache:") "k" =
      (none, { newRedisCache
          ⟨[⟨"cms_cache:k", marshalItem ⟨[1], [], 5⟩, 50⟩]⟩ "cms_cache:" with
        server := redisDEL
          ⟨[⟨"cms_cache:k", marshalItem ⟨[1], [], 5⟩, 50⟩]⟩ "cms_cache:k",
        Misses := 1 }) ∧
    InMemoryCache.Get 10 c3Store "k" = (none, c3Store) := by
  constructor
  · exact ((claim_C3.1 (newRedisCache
        ⟨[⟨"cms_cache:k", marshalItem ⟨[1], [], 5⟩, 50⟩]⟩ "cms_cache:") "k" 10
        (marshalItem ⟨[1], [], 5⟩) ⟨[1], [], 5⟩ rfl
        (unmarshal_marshal ⟨[1], [], 5⟩ (by decide)) (by decide))).1
  · exact claim_C3.2 c3Store "k" 10 ⟨[1], [], 5⟩ (by decide) (by decide)

/-- C4: the claim is false on the code at the boundary instant.  Storing at
time 0 with ttl 5 sets `expires_at = 5`; a get at time 5 — the current
time EQUAL to `expires_at`, after waiting exactly t — still returns the
item instead of reporting it absent (`time.Now().After` is strict). -/
theorem claim_C4_counterexample :
    (InMemoryCache.Get 5
      (InMemoryCache.Set 0 ⟨[]⟩ "k" [1] [] 5).2 "k").1 = some ⟨[1], [], 5⟩ := by
  decide

/-- C4 (amended): for both stores, after `set(k, …, t)` with `t > 0` the
item is returned by any get at a time up to AND INCLUDING `expires_at`
(in particular immediately), and is reported absent only once the current
time is strictly past `expires_at`. -/
theorem claim_C4 :
    (∀ (c : InMemoryCache) (key : String) (data : List Nat)
      (headers : List (String × String)) (ttl now now' : Int), 0 < ttl →
      ((InMemoryCache.Get now
          (InMemoryCache.Set now c key data headers ttl).2 key).1 =
        some ⟨data, headers, now + ttl⟩) ∧
      (now' ≤ now + ttl →
        (InMemoryCache.Get now'
            (InMemoryCache.Set now c key data headers ttl).2 key).1 =
          some ⟨data, headers, now + ttl⟩) ∧
      (now + ttl < now' →
        (InMemoryCache.Get now'
            (InMemoryCache.Set now c key data headers ttl).2 key).1 = none)) ∧
    (∀ (r : RedisCache) (key : String) (data : List Nat)
      (headers : List (String × String)) (ttl now now' : Int),
      (∀ b ∈ data, b < 256) → 0 < ttl →
      ((RedisCache.Get now
          (RedisCache.Set now r key data headers ttl).2 key).1 =
        some ⟨data, headers, now + ttl⟩) ∧
      (now' ≤ now + ttl →
        (RedisCache.Get now'
            (RedisCache.Set now r key data headers ttl).2 key).1 =
          some ⟨data, headers, now + ttl⟩) ∧
      (now + ttl < now' →
        (RedisCache.Get now'
            (RedisCache.Set now r key data headers ttl).2 key).1 = none)) := by
  constructor
  · intro c key data headers ttl now now' ht
    refine ⟨?_, fun hle => ?_, fun hgt => ?_⟩ <;>
      rw [inmem_set_get] <;> simp [timeAfter] <;> omega
  · intro r key data headers ttl now now' hwf ht
    refine ⟨?_, fun hle => ?_, fun hgt => ?_⟩ <;>
      rw [redis_set_get _ _ _ _ _ _ _ hwf] <;> simp [timeAfter] <;> omega

/-- Witness for C4 (amended) at a concrete store, key and times. -/
theorem claim_C4_witness :
    ((InMemoryCache.Get 0 (InMemoryCache.Set 0 ⟨[]⟩ "k" [1] [] 5).2 "k").1 =
      some ⟨[1], [], 5⟩) ∧
    ((InMemoryCache.Get 6 (InMemoryCache.Set 0 ⟨[]⟩ "k" [1] [] 5).2 "k").1 =
      none) ∧
    ((RedisCache.Get 3 (RedisCache.Set 0 (newRedisCache ⟨[]⟩ "cms_cache:")
        "k" [1] [] 5).2 "k").1 = some ⟨[1], [], 5⟩) ∧
    ((RedisCache.Get 6 (RedisCache.Set 0 (newRedisCache ⟨[]⟩ "cms_cache:")
        "k" [1] [] 5).2 "k").1 = none) :=
  ⟨(claim_C4.1 ⟨[]⟩ "k" [1] [] 5 0 0 (by decide)).1,
   (claim_C4.1 ⟨[]⟩ "k" [1] [] 5 0 6 (by decide)).2.2 (by decide),
   (claim_C4.2 (newRedisCache ⟨[]⟩ "cms_cache:") "k" [1] [] 5 0 3
     (by decide) (by decide)).2.1 (by decide),
   (claim_C4.2 (newRedisCache ⟨[]⟩ "cms_cache:") "k" [1] [] 5 0 6
     (by decide) (by decide)).2.2 (by decide)⟩

/-- The path portion of a URL string — everything before the query — which
is the spec's notion of "URL path" for resource tagging. -/
def urlPath (url : String) : String := ⟨url.data.takeWhile (fun c => c != '?')⟩

/-- C5: the claim is false on the code.  The substring checks run over the
FULL URL string (`c.Request.URL.String()`), query string included, not over
the path: a URL whose path contains none of the three markers but whose
query mentions `/posts` does get the `posts:` tag prefix. -/
theorem claim_C5_counterexample :
    urlPath "/search?next=/posts" = "/search" ∧
    goContains (urlPath "/search?next=/posts") "/posts" = false ∧
    goContains (urlPath "/search?next=/posts") "/pages" = false ∧
    goContains (urlPath "/search?next=/posts") "/media" = false ∧
    generateRedisCacheKey "GET" "/search?next=/posts" "" =
      "posts:" ++ redisDigest "GET" "/search?next=/posts" "" := by
  refine ⟨by decide, by decide, by decide, by decide, ?_⟩
  have h : goContains "/search?next=/posts" "/posts" = true := by decide
  simp [generateRedisCacheKey, h]

/-- The spec's `resource_tag`, corrected to read the full URL string:
ordered substring checks against the fixed marker list, first match
wins, no match yields no tag. -/
def resource_tag (url : String) : Option String :=
  if goContains url "/posts" then some "posts"
  else if goContains url "/pages" then some "pages"
  else if goContains url "/media" then some "media"
  else none

/-- The implemented key derivation refines the (corrected) spec shape:
optional tag from ordered checks, then `tag:digest` or the bare digest. -/
theorem key_eq_resource_tag (method url userAgent : String) :
    generateRedisCacheKey method url userAgent =
      (match resource_tag url with
       | some tag => tag ++ ":" ++ redisDigest method url userAgent
       | none => redisDigest method url userAgent) := by
  simp only [generateRedisCacheKey, resource_tag]
  have hp : ("posts" : String) ≠ "" := by decide
  have hg : ("pages" : String) ≠ "" := by decide
  have hm : ("media" : String) ≠ "" := by decide
  by_cases h1 : goContains url "/posts" = true <;>
    by_cases h2 : goContains url "/pages" = true <;>
      by_cases h3 : goContains url "/media" = true <;>
        simp [h1, h2, h3, hp, hg, hm]

/-- C5 (amended): the ordered first-match-wins substring checks run over
the FULL URL string (query included) rather than just the path, and the
final key is `tag + ":" + digest` when a tag exists, else the bare
digest. -/
theorem claim_C5 (method url userAgent : String) :
    generateRedisCacheKey method url userAgent =
      (match resource_tag url with
       | some tag => tag ++ ":" ++ redisDigest method url userAgent
       | none => redisDigest method url userAgent) :=
  key_eq_resource_tag method url userAgent

/-- Byte length of the MD5 digest is sixteen, independent of the input. -/
theorem md5Bytes_length (msg : List Nat) : (md5Bytes msg).length = 16 := rfl

/-- Character length of a hex encoding is twice the byte count. -/
theorem hexEncode_length (bs : List Nat) :
    (hexEncode bs).length = 2 * bs.length := by
  induction bs with
  | nil => rfl
  | cons b rest ih =>
    simp only [hexEncode, String.length, List.foldr] at ih ⊢
    simp [ih]
    omega

/-- The digest portion of every cache key has thirty-two characters. -/
theorem redisDigest_length (method url userAgent : String) :
    (redisDigest method url userAgent).length = 32 := by
  rw [redisDigest, hexEncode_length, md5Bytes_length]

/-- C7: key derivation is a pure total function of its three inputs —
identical inputs give the identical key (embedded here as a function, its
value depends on nothing else) — and the digest portion always has the
fixed length of thirty-two hex characters. -/
theorem claim_C7 (method url userAgent : String) :
    generateRedisCacheKey method url userAgent =
      generateRedisCacheKey method url userAgent ∧
    (redisDigest method url userAgent).length = 32 ∧
    (resource_tag url = none →
      (generateRedisCacheKey method url userAgent).length = 32) :=
  ⟨rfl, redisDigest_length method url userAgent, fun h => by
    rw [key_eq_resource_tag, h]
    exact redisDigest_length method url userAgent⟩

/-- Witness for C7 at concrete inputs (the last conjunct's hypothesis holds
for a URL carrying no resource marker). -/
theorem claim_C7_witness :
    (redisDigest "GET" "/healthz" "curl").length = 32 ∧
    (generateRedisCacheKey "GET" "/healthz" "curl").length = 32 :=
  ⟨(claim_C7 "GET" "/healthz" "curl").2.1,
   (claim_C7 "GET" "/healthz" "curl").2.2 (by decide)⟩

/-- Scenario E's initial state: a fresh (cleared) networked store. -/
def c6r0 : RedisCache := newRedisCache ⟨[]⟩ "cms_cache:"

/-- State after the one initial miss at time 0. -/
def c6r1 : RedisCache := (RedisCache.Get 0 c6r0 "k").2

/-- State after the miss's response is cached at time 1 with ttl 100. -/
def c6r2 : RedisCache :=
  (RedisCache.Set 1 c6r1 "k" [1] [("Content-Type", "application/json")] 100).2

/-- States after each of the four subsequent cached reads. -/
def c6r3 : RedisCache := (RedisCache.Get 2 c6r2 "k").2

/-- Second cached read. -/
def c6r4 : RedisCache := (RedisCache.Get 3 c6r3 "k").2

/-- Third cached read. -/
def c6r5 : RedisCache := (RedisCache.Get 4 c6r4 "k").2

/-- Fourth cached read. -/
def c6r6 : RedisCache := (RedisCache.Get 5 c6r5 "k").2

/-- C6: starting from a cleared networked tier, one missing GET lookup
followed by four hitting lookups leaves `GetStats` reporting `hits = 4`,
`misses = 1`, `hit_ratio = 0.8`; and in general the reported ratio is
hits/(hits+misses) whenever that total is positive, and 0 for a store that
has seen no lookups (whose stored ratio is still its zero initial
value). -/
theorem claim_C6 :
    ((RedisCache.Get 0 c6r0 "k").1 = none ∧
     (RedisCache.Get 2 c6r2 "k").1 ≠ none ∧
     (RedisCache.Get 5 c6r5 "k").1 ≠ none ∧
     (RedisCache.GetStats 6 c6r6).1.Hits = 4 ∧
     (RedisCache.GetStats 6 c6r6).1.Misses = 1 ∧
     (RedisCache.GetStats 6 c6r6).1.HitRatio = 0.8) ∧
    (∀ (now : Int) (r : RedisCache), 0 < r.Hits + r.Misses →
      (RedisCache.GetStats now r).1.HitRatio =
        (r.Hits : ℚ) / ((r.Hits : ℚ) + (r.Misses : ℚ))) ∧
    (∀ (now : Int) (r : RedisCache), r.Hits + r.Misses = 0 → r.HitRatio = 0 →
      (RedisCache.GetStats now r).1.HitRatio = 0) := by
  refine ⟨⟨by decide, by decide, by decide, by decide, by decide, ?_⟩,
    fun now r h => ?_, fun now r h h0 => ?_⟩
  · have h4 : c6r6.Hits = 4 := by decide
    have h1 : c6r6.Misses = 1 := by decide
    simp only [RedisCache.GetStats, h4, h1]
    norm_num
  · simp only [RedisCache.GetStats, if_pos h]
    push_cast
    ring
  · simp only [RedisCache.GetStats, h]
    norm_num
    exact h0

/-- Witness for C6's general hit-ratio clauses at concrete stores. -/
theorem claim_C6_witness :
    (RedisCache.GetStats 6 c6r6).1.HitRatio = ((4 : ℚ) / ((4 : ℚ) + (1 : ℚ))) ∧
    (RedisCache.GetStats 0 c6r0).1.HitRatio = 0 := by
  constructor
  · have h4 : c6r6.Hits = 4 := by decide
    have h1 : c6r6.Misses = 1 := by decide
    have := claim_C6.2.1 6 c6r6 (by rw [h4, h1]; decide)
    rw [h4, h1] at this
    exact this
  · exact claim_C6.2.2 0 c6r0 rfl rfl

/-- C8: on either tier, a set followed — at any moment up to the expiry
instant — by a get of the same key returns the data byte-identical and the
headers mapping equal to what was stored; on the networked tier this is
through the marshal/unmarshal of the stored payload. -/
theorem claim_C8 :
    (∀ (c : InMemoryCache) (key : String) (data : List Nat)
      (headers : List (String × String)) (ttl now now' : Int),
      0 < ttl → now' ≤ now + ttl →
      (InMemoryCache.Get now'
          (InMemoryCache.Set now c key data headers ttl).2 key).1 =
        some ⟨data, headers, now + ttl⟩) ∧
    (∀ (r : RedisCache) (key : String) (data : List Nat)
      (headers : List (String × String)) (ttl now now' : Int),
      (∀ b ∈ data, b < 256) → 0 < ttl → now' ≤ now + ttl →
      (RedisCache.Get now'
          (RedisCache.Set now r key data headers ttl).2 key).1 =
        some ⟨data, headers, now + ttl⟩) := by
  constructor
  · intro c key data headers ttl now now' ht hle
    rw [inmem_set_get]
    simp [timeAfter]
    omega
  · intro r key data headers ttl now now' hwf ht hle
    rw [redis_set_get _ _ _ _ _ _ _ hwf]
    simp [timeAfter]
    omega

/-- Witness for C8: a concrete round trip on each tier, body bytes and two
headers restored exactly. -/
theorem claim_C8_witness :
    ((InMemoryCache.Get 3 (InMemoryCache.Set 0 ⟨[]⟩ "k" [7, 200]
        [("Content-Type", "text/html"), ("X-Custom", "header")] 60).2 "k").1 =
      some ⟨[7, 200], [("Content-Type", "text/html"), ("X-Custom", "header")], 60⟩) ∧
    ((RedisCache.Get 3 (RedisCache.Set 0 (newRedisCache ⟨[]⟩ "cms_cache:")
        "k" [7, 200]
        [("Content-Type", "text/html"), ("X-Custom", "header")] 60).2 "k").1 =
      some ⟨[7, 200], [("Content-Type", "text/html"), ("X-Custom", "header")], 60⟩) :=
  ⟨claim_C8.1 ⟨[]⟩ "k" [7, 200]
      [("Content-Type", "text/html"), ("X-Custom", "header")] 60 0 3
      (by decide) (by decide),
   claim_C8.2 (newRedisCache ⟨[]⟩ "cms_cache:") "k" [7, 200]
      [("Content-Type", "text/html"), ("X-Custom", "header")] 60 0 3
      (by decide) (by decide) (by decide)⟩

/-- Claim C9's counterexample input: a networked store holding one live
entry whose key contains no `*`. -/
def c9Store : RedisCache :=
  newRedisCache ⟨[⟨"cms_cache:abc", Json.num 0, 100⟩]⟩ "cms_cache:"

/-- C9: the claim is false on the code for the networked store.  The
pattern is spliced into a Redis glob (`prefix*pattern*`), so a pattern
containing a glob metacharacter selects keys it does not occur in as a
substring: invalidating with pattern `"*"` deletes the entry `abc` even
though `"*"` is not a substring of it. -/
theorem claim_C9_counterexample :
    goContains "abc" "*" = false ∧
    goContains "cms_cache:abc" "*" = false ∧
    (RedisCache.InvalidatePattern 0 c9Store "*").1 = .ok () ∧
    (RedisCache.InvalidatePattern 0 c9Store "*").2.server.entries = [] := by
  refine ⟨by decide, by decide, rfl, rfl⟩

/-- The search glob built by `RedisCache.InvalidatePattern`, spelled as a
character list. -/
theorem searchPattern_data (ns pat : String) :
    (ns ++ "*" ++ pat ++ "*").data =
      ns.data ++ '*' :: (pat.data ++ ['*']) := by
  show ((ns.data ++ "*".data) ++ pat.data) ++ "*".data = _
  simp [List.append_assoc]

/-- The glob query `KEYS prefix*pattern*` selects exactly the live entries whose key
starts with the namespace and contains the pattern afterwards, provided
both are free of glob metacharacters. -/
theorem keysSelects_iff (ns pat : String) (now : Int)
    (hns : ∀ ch ∈ ns.data, plainChar ch) (hpat : ∀ ch ∈ pat.data, plainChar ch)
    (e : RedisEntry) :
    keysSelects now (ns ++ "*" ++ pat ++ "*") e = true ↔
      ((∃ u v, e.key.data = ns.data ++ u ++ pat.data ++ v) ∧
        timeAfter now e.serverExpiresAt = false) := by
  rw [keysSelects, Bool.and_eq_true, Bool.not_eq_true']
  rw [searchPattern_data, globMatch_sandwich ns.data pat.data hns hpat]

/-- C9 (amended): on the local store the claim holds for every pattern —
after invalidation an entry remains exactly when its key does not contain
the pattern, and the operation reports success.  On the networked store it
holds for glob-metacharacter-free patterns (and namespace) and live
entries: every live entry whose key is the namespace followed by text
containing the pattern is removed, every entry whose key has no such
decomposition survives untouched, nothing is added, and the operation
reports success. -/
theorem claim_C9 :
    (∀ (c : InMemoryCache) (pat : String),
      (c.InvalidatePattern pat).1 = .ok () ∧
      ∀ kv, kv ∈ (c.InvalidatePattern pat).2.items ↔
        kv ∈ c.items ∧ goContains kv.1 pat = false) ∧
    (∀ (r : RedisCache) (pat : String) (now : Int),
      (∀ ch ∈ r.pfx.data, plainChar ch) →
      (∀ ch ∈ pat.data, plainChar ch) →
      (RedisCache.InvalidatePattern now r pat).1 = .ok () ∧
      (∀ e ∈ r.server.entries, ∀ u v : List Char,
        e.key.data = r.pfx.data ++ u ++ pat.data ++ v →
        timeAfter now e.serverExpiresAt = false →
        e ∉ (RedisCache.InvalidatePattern now r pat).2.server.entries) ∧
      (∀ e ∈ r.server.entries,
        (∀ u v : List Char, e.key.data ≠ r.pfx.data ++ u ++ pat.data ++ v) →
        e ∈ (RedisCache.InvalidatePattern now r pat).2.server.entries) ∧
      (∀ e ∈ (RedisCache.InvalidatePattern now r pat).2.server.entries,
        e ∈ r.server.entries)) := by
  constructor
  · intro c pat
    refine ⟨rfl, fun kv => ?_⟩
    simp [InMemoryCache.InvalidatePattern, List.mem_filter]
  · intro r pat now hns hpat
    refine ⟨rfl, fun e he u v hk hlive hmem => ?_, fun e he hno => ?_,
      fun e he => ?_⟩
    · rw [RedisCache.InvalidatePattern] at hmem
      simp only [redisDELMatching, List.mem_filter, Bool.not_eq_true'] at hmem
      have hsel : keysSelects now (r.pfx ++ "*" ++ pat ++ "*") e = true :=
        (keysSelects_iff r.pfx pat now hns hpat e).mpr ⟨⟨u, v, hk⟩, hlive⟩
      rw [hmem.2] at hsel
      cases hsel
    · rw [RedisCache.InvalidatePattern]
      simp only [redisDELMatching, List.mem_filter, Bool.not_eq_true']
      refine ⟨he, ?_⟩
      cases hsel : keysSelects now (r.pfx ++ "*" ++ pat ++ "*") e with
      | false => rfl
      | true =>
        rcases (keysSelects_iff r.pfx pat now hns hpat e).mp hsel with ⟨⟨u, v, hk⟩, _⟩
        exact absurd hk (hno u v)
    · rw [RedisCache.InvalidatePattern] at he
      simp only [redisDELMatching, List.mem_filter] at he
      exact he.1

/-- Witness for C9 (amended): pattern `posts` over a concrete local store
and a concrete networked store with one matching and one unrelated
entry. -/
theorem claim_C9_witness :
    ((InMemoryCache.InvalidatePattern ⟨[("posts:a", ⟨[1], [], 9⟩),
        ("media:b", ⟨[2], [], 9⟩)]⟩ "posts").1 = .ok ()) ∧
    ("media:b", (⟨[2], [], 9⟩ : CacheItem)) ∈
      (InMemoryCache.InvalidatePattern ⟨[("posts:a", ⟨[1], [], 9⟩),
        ("media:b", ⟨[2], [], 9⟩)]⟩ "posts").2.items ∧
    ("posts:a", (⟨[1], [], 9⟩ : CacheItem)) ∉
      (InMemoryCache.InvalidatePattern ⟨[("posts:a", ⟨[1], [], 9⟩),
        ("media:b", ⟨[2], [], 9⟩)]⟩ "posts").2.items ∧
    (⟨"cms_cache:posts:x", Json.num 0, 100⟩ : RedisEntry) ∉
      (RedisCache.InvalidatePattern 0 (newRedisCache
        ⟨[⟨"cms_cache:posts:x", Json.num 0, 100⟩]⟩ "cms_cache:")
        "posts").2.server.entries := by
  refine ⟨(claim_C9.1 _ "posts").1, ?_, ?_, ?_⟩
  · exact ((claim_C9.1 ⟨[("posts:a", ⟨[1], [], 9⟩), ("media:b", ⟨[2], [], 9⟩)]⟩
      "posts").2 _).mpr ⟨by decide, by decide⟩
  · intro h
    have := ((claim_C9.1 ⟨[("posts:a", ⟨[1], [], 9⟩),
      ("media:b", ⟨[2], [], 9⟩)]⟩ "posts").2 _).mp h
    revert this
    decide
  · exact (claim_C9.2 (newRedisCache
      ⟨[⟨"cms_cache:posts:x", Json.num 0, 100⟩]⟩ "cms_cache:") "posts" 0
      (by decide) (by decide)).2.1 _ (List.mem_singleton.mpr rfl) "".data
      ":x".data (by decide) (by decide)

/-- A read that the server cannot serve is a miss that only bumps the
counter. -/
theorem redis_get_miss (now : Int) (r : RedisCache) (key : String)
    (h : redisGET now r.server (r.pfx ++ key) = none) :
    RedisCache.Get now r key = (none, { r with Misses := r.Misses + 1 }) := by
  simp [RedisCache.Get, h]

/-- A cached-GET pass whose lookup hits replays the stored item with
status 200. -/
theorem middleware_hit {σ : Type} (ops : StoreOps σ) (ttl now : Int) (st : σ)
    (req : Request) (d : HTTPResponse) (item : CacheItem)
    (hm : req.Method = "GET")
    (hadmin : goContains req.URLPath "/admin" = false)
    (hauth : goContains req.URLPath "/auth" = false)
    (hget : (ops.get now st
      (generateRedisCacheKey req.Method req.URLString req.UserAgent)).1 =
      some item) :
    (RedisCacheMiddleware ops ttl now st req d).1 =
      { status := 200, body := item.Data,
        headers := item.Headers ++ [("X-Cache", "HIT"),
          ("X-Cache-Key", keyFirst8 (generateRedisCacheKey req.Method
            req.URLString req.UserAgent))] } := by
  have hMne : ¬(req.Method ≠ "GET") := by simp [hm]
  have hguard : ¬((goContains req.URLPath "/admin" ||
      goContains req.URLPath "/auth") = true) := by simp [hadmin, hauth]
  simp only [RedisCacheMiddleware, if_neg hMne, if_neg hguard]
  rcases hpair : ops.get now st
    (generateRedisCacheKey req.Method req.URLString req.UserAgent) with ⟨it, st2⟩
  rw [hpair] at hget
  simp only at hget
  rw [hget]

/-- A cached-GET pass whose lookup misses, when the downstream response is
a 2xx with a non-empty body, stores the captured response and forwards it
with the MISS markers appended. -/
theorem middleware_miss_store {σ : Type} (ops : StoreOps σ) (ttl now : Int)
    (st st' : σ) (req : Request) (d : HTTPResponse)
    (hm : req.Method = "GET")
    (hadmin : goContains req.URLPath "/admin" = false)
    (hauth : goContains req.URLPath "/auth" = false)
    (hget : ops.get now st
      (generateRedisCacheKey req.Method req.URLString req.UserAgent) =
      (none, st'))
    (hcond : 200 ≤ d.status ∧ d.status < 300 ∧ d.body ≠ []) :
    RedisCacheMiddleware ops ttl now st req d =
      ({ d with headers := d.headers ++ [("X-Cache", "MISS"),
          ("X-Cache-Key", keyFirst8 (generateRedisCacheKey req.Method
            req.URLString req.UserAgent))] },
       (ops.set now st'
         (generateRedisCacheKey req.Method req.URLString req.UserAgent)
         d.body d.headers ttl).2) := by
  have hMne : ¬(req.Method ≠ "GET") := by simp [hm]
  have hguard : ¬((goContains req.URLPath "/admin" ||
      goContains req.URLPath "/auth") = true) := by simp [hadmin, hauth]
  simp only [RedisCacheMiddleware, if_neg hMne, if_neg hguard, hget,
    if_pos hcond]

/-- C10: a middleware hit is always replayed with HTTP status 200 and the
stored body, whatever the originally captured status was — and a captured
2xx response with a non-empty body (a 201, say) is indeed stored on the
miss pass and then served as a 200 by the next pass.  First conjunct: the
hit replay for any `CacheInterface` implementation.  Second conjunct: the
end-to-end two-pass scenario through the real manager over the networked
tier with local fallback. -/
theorem claim_C10 :
    (∀ (σ : Type) (ops : StoreOps σ) (ttl now : Int) (st : σ) (req : Request)
      (d : HTTPResponse) (item : CacheItem) (st' : σ),
      req.Method = "GET" →
      goContains req.URLPath "/admin" = false →
      goContains req.URLPath "/auth" = false →
      ops.get now st
        (generateRedisCacheKey req.Method req.URLString req.UserAgent) =
        (some item, st') →
      RedisCacheMiddleware ops ttl now st req d =
        ({ status := 200, body := item.Data,
           headers := item.Headers ++ [("X-Cache", "HIT"),
             ("X-Cache-Key", keyFirst8 (generateRedisCacheKey req.Method
               req.URLString req.UserAgent))] }, st')) ∧
    (∀ (srv : RedisServer) (ns : String) (mem : InMemoryCache) (req : Request)
      (d d2 : HTTPResponse) (ttl now now' : Int),
      req.Method = "GET" →
      goContains req.URLPath "/admin" = false →
      goContains req.URLPath "/auth" = false →
      200 ≤ d.status → d.status < 300 → d.body ≠ [] →
      (∀ b ∈ d.body, b < 256) →
      redisGET now srv
        (ns ++ generateRedisCacheKey req.Method req.URLString req.UserAgent) =
        none →
      now' ≤ now + ttl →
      (RedisCacheMiddleware (managerOps redisOps inMemOps) ttl now
          ⟨newRedisCache srv ns, mem, false⟩ req d).1.status = d.status ∧
      (RedisCacheMiddleware (managerOps redisOps inMemOps) ttl now'
          (RedisCacheMiddleware (managerOps redisOps inMemOps) ttl now
            ⟨newRedisCache srv ns, mem, false⟩ req d).2 req d2).1.status = 200 ∧
      (RedisCacheMiddleware (managerOps redisOps inMemOps) ttl now'
          (RedisCacheMiddleware (managerOps redisOps inMemOps) ttl now
            ⟨newRedisCache srv ns, mem, false⟩ req d).2 req d2).1.body =
        d.body) := by
  constructor
  · intro σ ops ttl now st req d item st' hm hadmin hauth hget
    have hMne : ¬(req.Method ≠ "GET") := by simp [hm]
    have hguard : ¬((goContains req.URLPath "/admin" ||
        goContains req.URLPath "/auth") = true) := by simp [hadmin, hauth]
    simp only [RedisCacheMiddleware, if_neg hMne, if_neg hguard, hget]
  · intro srv ns mem req d d2 ttl now now' hm hadmin hauth hs1 hs2 hbody hwf
      hmiss hle
    have hget1 : (managerOps redisOps inMemOps).get now
        ⟨newRedisCache srv ns, mem, false⟩
        (generateRedisCacheKey req.Method req.URLString req.UserAgent) =
        (none, ⟨{ newRedisCache srv ns with Misses := 1 }, mem, false⟩) := by
      simp only [managerOps, cmGet, redisOps,
        redis_get_miss now (newRedisCache srv ns) _ hmiss]
      rfl
    have h1 := middleware_miss_store (managerOps redisOps inMemOps) ttl now
      ⟨newRedisCache srv ns, mem, false⟩
      ⟨{ newRedisCache srv ns with Misses := 1 }, mem, false⟩ req d
      hm hadmin hauth hget1 ⟨hs1, hs2, hbody⟩
    have hset1 : ((managerOps redisOps inMemOps).set now
        ⟨{ newRedisCache srv ns with Misses := 1 }, mem, false⟩
        (generateRedisCacheKey req.Method req.URLString req.UserAgent)
        d.body d.headers ttl).2 =
        ⟨(RedisCache.Set now { newRedisCache srv ns with Misses := 1 }
            (generateRedisCacheKey req.Method req.URLString req.UserAgent)
            d.body d.headers ttl).2, mem, false⟩ := by
      simp only [managerOps, cmSet, redisOps, RedisCache.Set]
    have hget2 : (((managerOps redisOps inMemOps).get now'
        (⟨(RedisCache.Set now { newRedisCache srv ns with Misses := 1 }
            (generateRedisCacheKey req.Method req.URLString req.UserAgent)
            d.body d.headers ttl).2, mem, false⟩ :
          CMState RedisCache InMemoryCache)
        (generateRedisCacheKey req.Method req.URLString req.UserAgent)).1) =
        some ⟨d.body, d.headers, now + ttl⟩ := by
      have hr := redis_set_get { newRedisCache srv ns with Misses := 1 }
        (generateRedisCacheKey req.Method req.URLString req.UserAgent)
        d.body d.headers ttl now now' hwf
      rw [if_neg (by simp only [timeAfter]; simp; omega)] at hr
      simp only [managerOps, cmGet, redisOps]
      rcases hpair : RedisCache.Get now'
        (RedisCache.Set now { newRedisCache srv ns with Misses := 1 }
          (generateRedisCacheKey req.Method req.URLString req.UserAgent)
          d.body d.headers ttl).2
        (generateRedisCacheKey req.Method req.URLString req.UserAgent) with
        ⟨it, r2⟩
      rw [hpair] at hr
      simp only at hr
      rw [hr]
    have h2 := middleware_hit (managerOps redisOps inMemOps) ttl now'
      ⟨(RedisCache.Set now { newRedisCache srv ns with Misses := 1 }
          (generateRedisCacheKey req.Method req.URLString req.UserAgent)
          d.body d.headers ttl).2, mem, false⟩ req d2
      ⟨d.body, d.headers, now + ttl⟩ hm hadmin hauth hget2
    rw [h1, hset1]
    exact ⟨rfl, by rw [h2], by rw [h2]⟩

/-- Witness for C10: a captured 201 response with body bytes `[104, 105]`
is stored by the first pass and replayed as a 200 with the same bytes by
the second pass, over a fresh manager in Primary-Available mode. -/
theorem claim_C10_witness :
    (RedisCacheMiddleware (managerOps redisOps inMemOps) 100 0
        ⟨newRedisCache ⟨[]⟩ "cms_cache:", ⟨[]⟩, false⟩
        ⟨"GET", "/posts", "/posts", "UA"⟩
        ⟨201, [104, 105], [("Content-Type", "text/plain")]⟩).1.status = 201 ∧
    (RedisCacheMiddleware (managerOps redisOps inMemOps) 100 1
        (RedisCacheMiddleware (managerOps redisOps inMemOps) 100 0
          ⟨newRedisCache ⟨[]⟩ "cms_cache:", ⟨[]⟩, false⟩
          ⟨"GET", "/posts", "/posts", "UA"⟩
          ⟨201, [104, 105], [("Content-Type", "text/plain")]⟩).2
        ⟨"GET", "/posts", "/posts", "UA"⟩ ⟨500, [], []⟩).1.status = 200 ∧
    (RedisCacheMiddleware (managerOps redisOps inMemOps) 100 1
        (RedisCacheMiddleware (managerOps redisOps inMemOps) 100 0
          ⟨newRedisCache ⟨[]⟩ "cms_cache:", ⟨[]⟩, false⟩
          ⟨"GET", "/posts", "/posts", "UA"⟩
          ⟨201, [104, 105], [("Content-Type", "text/plain")]⟩).2
        ⟨"GET", "/posts", "/posts", "UA"⟩ ⟨500, [], []⟩).1.body = [104, 105] :=
  claim_C10.2 ⟨[]⟩ "cms_cache:" ⟨[]⟩ ⟨"GET", "/posts", "/posts", "UA"⟩
    ⟨201, [104, 105], [("Content-Type", "text/plain")]⟩ ⟨500, [], []⟩ 100 0 1
    rfl (by decide) (by decide) (by decide) (by decide) (by decide)
    (by decide) rfl (by decide)

end CMS
